import Mathlib

/-!
A shallow embedding, in Lean 4, of the `sssig_rules` rule translator
(`hack/translate/sssig_rules`): the IR schema (`schema.py`), the shared
pattern-composition helpers (`targets/common.py`) and the five backend
emitters (`targets/{github,gitleaks,kingfisher,noseyparker,trufflehog}.py`).

Modelling conventions:
* Python `str` is Lean `String`; ASCII-only case mapping is assumed
  (every literal appearing in the rule documents is ASCII).
* Python `float` values (entropy bounds, timeouts) are modelled as `Rat`;
  the source only compares and maximises them, which is exact.
* Python `dict` (insertion ordered) is an association list.
* Python `set[int]` is a `Finset Nat`; CPython renders a set of small ints
  to a list in an unspecified deterministic order, modelled here as the
  ascending order where a list is required.
* `None`-able values are `Option`; Python truthiness of a list-or-None
  value is `truthy` below, of a string is `≠ ""`, of a float is `≠ 0`.
* Logging calls (`logger.warning` / `logging.warning`) are modelled as a
  `Warning` value collected in the function result, mirroring each log
  site of the source.
-/

namespace SSSIG

/-! ### Python primitives used by the source -/

/-- Python `str.lower` restricted to ASCII. -/
def pyLower (s : String) : String :=
  String.mk (s.toList.map Char.toLower)

/-- Python `str.upper` restricted to ASCII. -/
def pyUpper (s : String) : String :=
  String.mk (s.toList.map Char.toUpper)

/-- The characters Python `re.escape` (3.7+) prefixes with a backslash. -/
def reEscapeSpecial : List Char :=
  ['(', ')', '[', ']', '\x7b', '\x7d', '?', '*', '+', '-', '|', '^', '$',
   '\\', '.', '&', '~', '#', ' ', '\t', '\n', '\r', '\x0b', '\x0c']

def reEscapeChar (c : Char) : List Char :=
  if c ∈ reEscapeSpecial then ['\\', c] else [c]

/-- Python `re.escape`: escape every regex metacharacter of the literal. -/
def reEscape (s : String) : String :=
  String.mk ((s.toList.map reEscapeChar).flatten)

/-- Helper for `pyTitle`: the boolean records whether the previous
character was alphabetic (cased). -/
def pyTitleAux : Bool → List Char → List Char
  | _, [] => []
  | prevCased, c :: rest =>
    if c.isAlpha then
      (if prevCased then c.toLower else c.toUpper) :: pyTitleAux true rest
    else
      c :: pyTitleAux false rest

/-- Python `str.title` restricted to ASCII: each alphabetic run starts
upper-case, the rest of the run is lower-case. -/
def pyTitle (s : String) : String :=
  String.mk (pyTitleAux false s.toList)

/-- Python truthiness of a `list | None` value. -/
def truthy : Option (List α) → Bool
  | none => false
  | some l => !l.isEmpty

/-- Python `xs or None` for a list value. -/
def orNone (l : List α) : Option (List α) :=
  if l.isEmpty then none else some l

/-! ### `schema.py`: the IR model -/

/-- A `Pattern` is a regex string already validated by the (out-of-scope)
hyperscan checker; the translator only concatenates such strings. -/
abbrev Pattern := String

inductive Confidence
  | low
  | medium
  | high
deriving DecidableEq, Repr

/-- `schema.Syntax`, the expected body syntax of an HTTP response. -/
inductive Syntax
  | html
  | json
  | xml
deriving DecidableEq, Repr

inductive TargetKind
  | unknown
  | aws_access_key_id
  | aws_secret_access_key
  | github_fine_grained_personal_access_token
  | github_personal_access_token
  | hostname
  | password
  | username
deriving DecidableEq, Repr

structure Examples where
  positive : Option (List String) := none
  negative : Option (List String) := none
deriving DecidableEq, Repr

structure Meta where
  confidence : Option Confidence := none
  examples : Option Examples := none
  references : Option (List String) := none
  report : Bool := true
  tags : Option (List String) := none
deriving DecidableEq, Repr

structure RuleMeta extends Meta where
  kind : TargetKind := TargetKind.unknown
  name : String
  description : Option String := none
deriving DecidableEq, Repr

structure Target where
  prefix_pattern : Option Pattern := none
  pattern : Pattern
  suffix_pattern : Option Pattern := none
deriving DecidableEq, Repr

inductive FilterKind
  | require
  | exclude
deriving DecidableEq, Repr

/-- `schema.HttpMatcher`.  A `StatusRange` is already normalized to a
closed interval `(start, end)` by `ensure_valid_range`. -/
structure HttpMatcher where
  statuses : Option (List (Nat × Nat)) := none
  headers : Option (List (String × List String)) := none
  body_strings : Option (List String) := none
  body_patterns : Option (List Pattern) := none
  body_syntax : Option Syntax := none
deriving DecidableEq, Repr

/-- Projection for the body-syntax field of `HttpMatcher`. -/
def bodySyntaxOf : HttpMatcher → Option Syntax
  | ⟨_, _, _, _, s⟩ => s

structure ExcludeFilter where
  target_strings : Option (List String) := none
  path_patterns : Option (List Pattern) := none
  path_strings : Option (List String) := none
  context_strings : Option (List String) := none
  target_patterns : Option (List Pattern) := none
  match_patterns : Option (List Pattern) := none
  match_strings : Option (List String) := none
  context_patterns : Option (List Pattern) := none
deriving DecidableEq, Repr

structure RequireFilter where
  target_strings : Option (List String) := none
  path_patterns : Option (List Pattern) := none
  path_strings : Option (List String) := none
  context_strings : Option (List String) := none
  target_min_entropy : Option ℚ := none
deriving DecidableEq, Repr

/-- The tagged union `Filter`, discriminated by `kind`. -/
inductive Filter
  | require (f : RequireFilter)
  | exclude (f : ExcludeFilter)
deriving DecidableEq, Repr

def Filter.kind : Filter → FilterKind
  | .require _ => .require
  | .exclude _ => .exclude

/-- `schema.AnalyzerKind` currently has the single member HTTP. -/
inductive AnalyzerKind
  | http
deriving DecidableEq, Repr

structure AnalyzerMeta where
  confidence : Option Confidence := none
  examples : Option Examples := none
  references : Option (List String) := none
  report : Bool := false
  tags : Option (List String) := none
  kind : AnalyzerKind
deriving DecidableEq, Repr

/-- `schema.AnalyzerHttpAction`; the pydantic `HttpUrl` is modelled by its
string rendering. -/
structure AnalyzerHttpAction where
  url : String
  method : Option String := none
  headers : Option (List (String × String)) := none
  body : Option String := none
  timeout : Option ℚ := none
deriving DecidableEq, Repr

structure Analyzer where
  meta : AnalyzerMeta
  action : AnalyzerHttpAction
  condition : List HttpMatcher
deriving DecidableEq, Repr

structure Dependancy where
  rule_id : String
  varname : String
  within_lines : Option Nat := none
  within_columns : Option Nat := none
deriving DecidableEq, Repr

structure Rule where
  id : String
  meta : RuleMeta
  dependencies : Option (List Dependancy) := none
  target : Target
  filters : Option (List Filter) := none
  analyzers : Option (List Analyzer) := none
deriving DecidableEq, Repr

/-! ### Structured warnings

Each constructor mirrors one `logger.warning` / `logging.warning` call
site of the emitters, carrying the data interpolated into the message. -/

inductive RegexTarget
  | line
  | matchTgt
  | secret
deriving DecidableEq, Repr

inductive Warning
  | matchWithTarget (t : RegexTarget)
  | targetWithTarget (t : RegexTarget)
  | analyzersIgnoredGitleaks (ruleId : String)
  | skippingFilter (ruleId : String)
  | analyzersNotMapped (count : Nat)
  | timeoutIgnored
  | filtersIgnoredKingfisher (ruleId : String)
  | dependenciesIgnoredNoseyparker (ruleId : String)
  | filtersIgnoredNoseyparker (ruleId : String)
  | analyzersIgnoredNoseyparker (ruleId : String)
  | unsupportedAnalyzerKind (kind : AnalyzerKind)
deriving DecidableEq, Repr

/-! ### `targets/common.py` -/

/-- `common._pattern_str`.  The source asserts that `capture_group` and
`noncapture_group` are never both set; every call site satisfies it. -/
def pattern_str (pattern : Option Pattern)
    (capture_group noncapture_group : Bool) : String :=
  match pattern with
  | none => ""
  | some p =>
    if capture_group then "(" ++ p ++ ")"
    else if noncapture_group then "(?:" ++ p ++ ")"
    else p

/-- `common._match_pattern`: compose prefix, target and suffix patterns.
The capture flag is the Python truthiness of the rendered affix strings. -/
def match_pattern (rule : Rule) : Pattern :=
  let pre := pattern_str rule.target.prefix_pattern false true
  let suf := pattern_str rule.target.suffix_pattern false true
  let tgt := pattern_str (some rule.target.pattern) (pre != "" || suf != "") false
  pre ++ tgt ++ suf

/-- `common._strings_to_pattern`. -/
def strings_to_pattern (strings : Option (List String)) : Option Pattern :=
  match strings with
  | none => none
  | some [] => none
  | some [s] => some ("(?i)" ++ pyLower (reEscape s))
  | some l =>
    some ("(?i)" ++ String.intercalate "|"
      (l.map (fun s => "(?:" ++ pyLower (reEscape s) ++ ")")))

/-- `common._or_patterns`. -/
def or_patterns : List Pattern → Option Pattern
  | [] => none
  | [p] => some p
  | l => some (String.intercalate "|" (l.map (fun p => "(?:" ++ p ++ ")")))

/-- `common._required_filters`. -/
def required_filters (rule : Rule) : List RequireFilter :=
  (rule.filters.getD []).filterMap
    (fun f => match f with | .require r => some r | .exclude _ => none)

/-- `common._excluded_filters`. -/
def excluded_filters (rule : Rule) : List ExcludeFilter :=
  (rule.filters.getD []).filterMap
    (fun f => match f with | .exclude e => some e | .require _ => none)

/-- `common._min_entropy`.  Note the Python truthiness tests: a specified
bound of `0.0` is falsy, and the final `entropy or None` maps an
accumulated `0.0` to `None`. -/
def min_entropy (rule : Rule) : Option ℚ :=
  let req_filters := required_filters rule
  if req_filters.isEmpty then none
  else
    let entropy := req_filters.foldl
      (fun acc f =>
        match f.target_min_entropy with
        | some x => if x ≠ 0 ∧ x > acc then x else acc
        | none => acc) 0
    if entropy = 0 then none else some entropy

/-! ### `targets/kingfisher.py`: the status-matcher optimisation -/

/-- `kingfisher.valid_http_statuses`: `set(range(100, 600))`. -/
def valid_http_statuses : Finset Nat := Finset.Icc 100 599

/-- The set comprehension in `kingfisher._resolve_status`:
`{status for start, end in statuses for status in range(start, end + 1)}`. -/
def expandStatuses (statuses : List (Nat × Nat)) : Finset Nat :=
  statuses.foldr (fun r acc => Finset.Icc r.1 r.2 ∪ acc) ∅

/-- `kingfisher._resolve_status`: expand the inclusive ranges, and decide
whether listing the complement (`negative=True`) is shorter. -/
def resolve_status (statuses : List (Nat × Nat)) : Bool × Finset Nat :=
  let expanded := expandStatuses statuses
  let negated := valid_http_statuses \ expanded
  if negated.card < expanded.card then (true, negated)
  else (false, expanded)

/-! ### Example rules used as concrete inputs -/

/-- A bare rule: target pattern only, no affixes, filters or analyzers. -/
def bareRule : Rule :=
  { id := "S3IGAAAAAAAAAAAAAAAA"
    meta := { name := "bare", kind := .unknown }
    target := { pattern := "[A-Za-z0-9]" ++ "\x7b32\x7d" } }

/-- A rule whose only REQUIRE filter specifies a minimum entropy of `0.0`. -/
def zeroEntropyRule : Rule :=
  { id := "S3IGAAAAAAAAAAAAAAAB"
    meta := { name := "zero-entropy", kind := .unknown }
    target := { pattern := "[0-9]+" }
    filters := some [.require { target_min_entropy := some 0 }] }

/-! ### C1: composition of the match pattern -/

theorem wrap_ne_empty (p : String) : (("(?:" ++ p ++ ")") != "") = true := by
  simp only [bne_iff_ne, ne_eq, String.ext_iff]
  simp

/-- C1: for every rule, `_match_pattern` concatenates prefix, core and
suffix, where each present affix is wrapped `(?:·)` and the core target is
wrapped `(·)` exactly when a prefix or a suffix is present; with neither
affix the target pattern is returned unchanged. -/
theorem C1_match_pattern (rule : Rule) :
    (match_pattern rule =
      (match rule.target.prefix_pattern with
        | none => ""
        | some p => "(?:" ++ p ++ ")") ++
      (if rule.target.prefix_pattern.isSome || rule.target.suffix_pattern.isSome
        then "(" ++ rule.target.pattern ++ ")"
        else rule.target.pattern) ++
      (match rule.target.suffix_pattern with
        | none => ""
        | some p => "(?:" ++ p ++ ")")) ∧
    (rule.target.prefix_pattern = none → rule.target.suffix_pattern = none →
      match_pattern rule = rule.target.pattern) := by
  obtain ⟨i, m, d, ⟨pre, pat, suf⟩, fi, an⟩ := rule
  rcases pre with _ | p <;> rcases suf with _ | q <;>
    simp [match_pattern, pattern_str, wrap_ne_empty]

/-- Witness for C1 at a rule with neither prefix nor suffix. -/
theorem C1_match_pattern_witness :
    bareRule.target.prefix_pattern = none ∧
    bareRule.target.suffix_pattern = none ∧
    match_pattern bareRule = bareRule.target.pattern :=
  ⟨rfl, rfl, (C1_match_pattern bareRule).2 rfl rfl⟩

/-! ### C7: literal strings to a case-insensitive pattern -/

/-- C7: `_strings_to_pattern` yields `None` for an absent or empty list, a
single `(?i)`-prefixed escaped lower-cased literal for one string, and for
two or more strings one leading `(?i)` flag followed by the alternation of
the individually escaped and lower-cased literals, each wrapped `(?:·)`,
in input order. -/
theorem C7_strings_to_pattern :
    strings_to_pattern none = none ∧
    strings_to_pattern (some []) = none ∧
    (∀ s, strings_to_pattern (some [s]) =
      some ("(?i)" ++ pyLower (reEscape s))) ∧
    (∀ s t rest, strings_to_pattern (some (s :: t :: rest)) =
      some ("(?i)" ++ String.intercalate "|"
        ((s :: t :: rest).map (fun x => "(?:" ++ pyLower (reEscape x) ++ ")")))) :=
  ⟨rfl, rfl, fun _ => rfl, fun _ _ _ => rfl⟩

/-! ### C5: aggregated minimum entropy -/

/-- C5 counterexample: a REQUIRE filter that specifies the bound `0.0` is
dropped by the Python truthiness tests, so `_min_entropy` returns `None`
even though a REQUIRE filter did specify a bound. -/
theorem C5_min_entropy_counterexample :
    min_entropy zeroEntropyRule = none ∧
    (required_filters zeroEntropyRule).filterMap RequireFilter.target_min_entropy
      = [0] := by
  constructor <;> decide

theorem le_foldl_max (as : List ℚ) (acc : ℚ) : acc ≤ as.foldl max acc := by
  induction as generalizing acc with
  | nil => simp
  | cons b bs ih => exact le_trans (le_max_left acc b) (ih (max acc b))

theorem min_entropy_foldl_eq_max (l : List RequireFilter) (acc : ℚ)
    (hacc : 0 ≤ acc)
    (h : ∀ f ∈ l, ∀ x, f.target_min_entropy = some x → 0 ≤ x) :
    l.foldl
      (fun acc f =>
        match f.target_min_entropy with
        | some x => if x ≠ 0 ∧ x > acc then x else acc
        | none => acc) acc
    = ((l.filterMap RequireFilter.target_min_entropy).filter
        (fun x => 0 < x)).foldl max acc := by
  induction l generalizing acc with
  | nil => rfl
  | cons f fs ih =>
    have hf := h f (List.mem_cons_self f fs)
    have hfs : ∀ g ∈ fs, ∀ x, g.target_min_entropy = some x → 0 ≤ x :=
      fun g hg => h g (List.mem_cons_of_mem f hg)
    rcases hx : f.target_min_entropy with _ | x
    · simp only [List.foldl_cons, List.filterMap_cons, hx]
      exact ih acc hacc hfs
    · have hx0 : 0 ≤ x := hf x hx
      simp only [List.foldl_cons, List.filterMap_cons, hx]
      rcases eq_or_lt_of_le hx0 with hz | hpos
      · -- a specified bound of zero is skipped by the truthiness test
        subst hz
        rw [if_neg (by simp), List.filter_cons, if_neg (by simp)]
        exact ih acc hacc hfs
      · have hcond : (if x ≠ 0 ∧ x > acc then x else acc) = max acc x := by
          rcases le_or_lt x acc with hle | hlt
          · rw [if_neg, max_eq_left hle]
            rintro ⟨-, hgt⟩
            exact absurd hgt (not_lt.mpr hle)
          · rw [if_pos ⟨ne_of_gt hpos, hlt⟩, max_eq_right (le_of_lt hlt)]
        rw [hcond, List.filter_cons, if_pos (by simpa using hpos), List.foldl_cons]
        exact ih (max acc x) (le_trans hacc (le_max_left acc x)) hfs

theorem foldl_max_pos_eq_max? (ps : List ℚ) (h : ∀ x ∈ ps, 0 < x) :
    (if ps.foldl max 0 = 0 then none else some (ps.foldl max 0)) = ps.max? := by
  cases ps with
  | nil => rfl
  | cons a as =>
    have ha : 0 < a := h a (List.mem_cons_self a as)
    have h1 : (a :: as).foldl max 0 = as.foldl max a := by
      rw [List.foldl_cons, max_eq_right ha.le]
    have h2 : 0 < as.foldl max a := lt_of_lt_of_le ha (le_foldl_max as a)
    rw [h1, if_neg (by exact ne_of_gt h2)]
    rfl

/-- C5 (amended): the aggregated minimum entropy is the maximum of
`target_min_entropy` over the REQUIRE filters that specify a *positive*
bound, and is `None` when no REQUIRE filter specifies a positive bound —
a specified value of `0.0` is treated the same as an absent one, and a
rule with no REQUIRE filters yields `None`. -/
theorem C5_min_entropy_amended (rule : Rule)
    (h : ∀ f ∈ required_filters rule, ∀ x, f.target_min_entropy = some x → 0 ≤ x) :
    min_entropy rule =
      (((required_filters rule).filterMap RequireFilter.target_min_entropy).filter
        (fun x => 0 < x)).max? := by
  unfold min_entropy
  rcases hl : required_filters rule with _ | ⟨f, fs⟩
  · rfl
  · rw [hl] at h
    simp only [List.isEmpty_cons, Bool.false_eq_true, if_false]
    rw [min_entropy_foldl_eq_max (f :: fs) 0 le_rfl h]
    exact foldl_max_pos_eq_max? _ (fun x hx => by
      have := List.of_mem_filter hx
      simpa using this)

/-- A rule with two REQUIRE filters specifying entropies `2.0` and `3.5`. -/
def twoEntropyRule : Rule :=
  { id := "S3IGAAAAAAAAAAAAAAAC"
    meta := { name := "two-entropy", kind := .unknown }
    target := { pattern := "[0-9]+" }
    filters := some [.require { target_min_entropy := some 2 },
                     .require { target_min_entropy := some (mkRat 7 2) }] }

/-- Witness for C5 (amended): entropies 2.0 and 3.5 aggregate to 3.5. -/
theorem C5_min_entropy_amended_witness :
    min_entropy twoEntropyRule = some (mkRat 7 2) := by
  rw [C5_min_entropy_amended twoEntropyRule ?_]
  · decide
  · intro f hf x hx
    have hreq : required_filters twoEntropyRule =
        [{ target_min_entropy := some 2 }, { target_min_entropy := some (mkRat 7 2) }] := by
      decide
    rw [hreq] at hf
    simp only [List.mem_cons, List.not_mem_nil, or_false] at hf
    rcases hf with rfl | rfl <;> simp at hx <;> subst hx <;> decide

/-! ### C2: the kingfisher status-matcher optimisation -/

theorem mem_expandStatuses (statuses : List (Nat × Nat)) (n : Nat) :
    n ∈ expandStatuses statuses ↔ ∃ p ∈ statuses, p.1 ≤ n ∧ n ≤ p.2 := by
  induction statuses with
  | nil => simp [expandStatuses]
  | cons p ps ih =>
    unfold expandStatuses at ih ⊢
    simp only [List.foldr_cons, Finset.mem_union, Finset.mem_Icc, List.mem_cons, ih]
    constructor
    · rintro (h | ⟨q, hq, h1, h2⟩)
      · exact ⟨p, Or.inl rfl, h.1, h.2⟩
      · exact ⟨q, Or.inr hq, h1, h2⟩
    · rintro ⟨q, (rfl | hq), h1, h2⟩
      · exact Or.inl ⟨h1, h2⟩
      · exact Or.inr ⟨q, hq, h1, h2⟩

set_option maxRecDepth 40000 in
/-- C2: `_resolve_status` expands the inclusive ranges into the set of
covered status codes; it returns the complement within 100–599 with
`negative=True` when the expanded set is strictly larger than that
complement, otherwise (ties included) the expanded set un-negated; the
ranges `[[200,201],[404,404]]` yield the plain set `{200, 201, 404}`. -/
theorem C2_resolve_status (statuses : List (Nat × Nat)) :
    (∀ n, n ∈ expandStatuses statuses ↔
        ∃ p ∈ statuses, p.1 ≤ n ∧ n ≤ p.2) ∧
    ((expandStatuses statuses).card
        > (valid_http_statuses \ expandStatuses statuses).card →
      resolve_status statuses
        = (true, valid_http_statuses \ expandStatuses statuses)) ∧
    (¬ (expandStatuses statuses).card
        > (valid_http_statuses \ expandStatuses statuses).card →
      resolve_status statuses = (false, expandStatuses statuses)) ∧
    ((expandStatuses statuses).card
        = (valid_http_statuses \ expandStatuses statuses).card →
      resolve_status statuses = (false, expandStatuses statuses)) ∧
    resolve_status [(200, 201), (404, 404)]
      = (false, ({200, 201, 404} : Finset Nat)) := by
  refine ⟨mem_expandStatuses statuses, ?_, ?_, ?_, by decide⟩
  · intro h
    simp only [resolve_status]
    rw [if_pos h]
  · intro h
    simp only [resolve_status]
    rw [if_neg h]
  · intro h
    simp only [resolve_status]
    rw [if_neg (by omega)]

set_option maxRecDepth 40000 in
/-- Witness for C2 at the ranges `[[200,201],[404,404]]`: the expanded set
(3 codes) is not larger than its complement (497 codes), so the literal,
non-negated representation is chosen. -/
theorem C2_resolve_status_witness :
    ¬ (expandStatuses [(200, 201), (404, 404)]).card
        > (valid_http_statuses \ expandStatuses [(200, 201), (404, 404)]).card ∧
    resolve_status [(200, 201), (404, 404)]
      = (false, expandStatuses [(200, 201), (404, 404)]) :=
  ⟨by decide, (C2_resolve_status [(200, 201), (404, 404)]).2.2.1 (by decide)⟩

/-! ### `targets/gitleaks.py` -/

inductive AllowlistCondition
  | and
  | or
deriving DecidableEq, Repr

structure GitleaksAllowlist where
  condition : AllowlistCondition
  regexTarget : Option RegexTarget := none
  paths : Option (List Pattern) := none
  regexes : Option (List Pattern) := none
  stopwords : Option (List String) := none
deriving DecidableEq, Repr

structure GitleaksRequired where
  id : String
  withinLines : Option Nat := none
  withinColumns : Option Nat := none
deriving DecidableEq, Repr

structure GitleaksRule where
  id : String
  description : Option String := none
  path : Option Pattern := none
  regex : Option Pattern := none
  entropy : Option ℚ := none
  keywords : Option (List String) := none
  tags : Option (List String) := none
  skipReport : Option Bool := none
  allowlists : Option (List GitleaksAllowlist) := none
  required : Option (List GitleaksRequired) := none
deriving DecidableEq, Repr

structure GitleaksConfig where
  rules : List GitleaksRule
deriving DecidableEq, Repr

/-- The spelled-out value of each `TargetKind` member (`StrEnum`). -/
def targetKindStr : TargetKind → String
  | .unknown => "unknown"
  | .aws_access_key_id => "aws_access_key_id"
  | .aws_secret_access_key => "aws_secret_access_key"
  | .github_fine_grained_personal_access_token =>
      "github_fine_grained_personal_access_token"
  | .github_personal_access_token => "github_personal_access_token"
  | .hostname => "hostname"
  | .password => "password"
  | .username => "username"

def confidenceStr : Confidence → String
  | .low => "low"
  | .medium => "medium"
  | .high => "high"

/-- Common path fields of the `Filter` union. -/
def Filter.path_patterns : Filter → Option (List Pattern)
  | .require f => f.path_patterns
  | .exclude f => f.path_patterns

def Filter.path_strings : Filter → Option (List String)
  | .require f => f.path_strings
  | .exclude f => f.path_strings

/-- `gitleaks._keywords` (also `trufflehog._keywords`, textually identical
in the source). -/
def gitleaks_keywords (rule : Rule) : Option (List String) :=
  let req_filters := required_filters rule
  if req_filters.isEmpty then none
  else
    orNone (req_filters.foldl
      (fun acc f =>
        acc
        ++ (if truthy f.context_strings then f.context_strings.getD [] else [])
        ++ (if truthy f.target_strings then f.target_strings.getD [] else []))
      [])

/-- `gitleaks._path_patterns`: the per-filter path pattern list. -/
def gitleaks_path_patterns (f : Filter) : Option (List Pattern) :=
  orNone
    ((if truthy f.path_patterns then f.path_patterns.getD [] else [])
      ++ (strings_to_pattern f.path_strings).toList)

/-- `gitleaks._path`: OR of all REQUIRE filters' path patterns. -/
def gitleaks_path (rule : Rule) : Option Pattern :=
  or_patterns (((required_filters rule).filterMap
    (fun f => gitleaks_path_patterns (.require f))).flatten)

/-- `gitleaks._tags`. -/
def gitleaks_tags (rule : Rule) : List String :=
  ["kind:" ++ targetKindStr rule.meta.kind]
  ++ (match rule.meta.confidence with
      | some c => ["confidence:" ++ confidenceStr c]
      | none => [])
  ++ (if truthy rule.meta.tags then rule.meta.tags.getD [] else [])

/-- `gitleaks._required`. -/
def gitleaks_required (rule : Rule) : Option (List GitleaksRequired) :=
  if truthy rule.dependencies then
    some ((rule.dependencies.getD []).map (fun d =>
      { id := d.rule_id
        withinLines := d.within_lines
        withinColumns := d.within_columns }))
  else none

/-- `gitleaks._description`: `rule.meta.description or rule.meta.name`. -/
def gitleaks_description (rule : Rule) : Option String :=
  match rule.meta.description with
  | some d => if d = "" then some rule.meta.name else some d
  | none => some rule.meta.name

/-- `gitleaks._allowlist_regexes`: pick the single `regexTarget` by the
priority context > match > target patterns, appending every populated
scope's patterns to one list, and warn when a scope is folded into an
already-chosen target.  The unused `rule` argument mirrors the source
signature. -/
def allowlist_regexes (_rule : Rule) (f : ExcludeFilter) :
    (Option RegexTarget × Option (List Pattern)) × List Warning :=
  let step₁ : Option RegexTarget × List Pattern :=
    if truthy f.context_patterns || truthy f.context_strings then
      (some .line,
        (if truthy f.context_patterns then f.context_patterns.getD [] else [])
        ++ (strings_to_pattern f.context_strings).toList)
    else (none, [])
  let step₂ : (Option RegexTarget × List Pattern) × List Warning :=
    if truthy f.match_patterns || truthy f.match_strings then
      (((match step₁.1 with | some t => some t | none => some .matchTgt),
        step₁.2
        ++ (if truthy f.match_patterns then f.match_patterns.getD [] else [])
        ++ (strings_to_pattern f.match_strings).toList),
       (match step₁.1 with
        | some t => [Warning.matchWithTarget t]
        | none => []))
    else (step₁, [])
  let step₃ : (Option RegexTarget × List Pattern) × List Warning :=
    if truthy f.target_patterns then
      (((match step₂.1.1 with | some t => some t | none => some .secret),
        step₂.1.2
        ++ (if truthy f.target_patterns then f.target_patterns.getD [] else [])),
       step₂.2
       ++ (match step₂.1.1 with
           | some t => [Warning.targetWithTarget t]
           | none => []))
    else step₂
  if step₃.1.2.isEmpty then ((none, none), step₃.2)
  else ((step₃.1.1, some step₃.1.2), step₃.2)

/-- `gitleaks._allowlists`: one allowlist per EXCLUDE filter. -/
def gitleaks_allowlists (rule : Rule) :
    Option (List GitleaksAllowlist) × List Warning :=
  let exc_filters := excluded_filters rule
  if exc_filters.isEmpty then (none, [])
  else
    let results := exc_filters.map (fun f =>
      let r := allowlist_regexes rule f
      (({ condition := .and
          stopwords := f.target_strings
          paths := gitleaks_path_patterns (.exclude f)
          regexes := r.1.2
          regexTarget := r.1.1 } : GitleaksAllowlist), r.2))
    (orNone (results.map (·.1)), (results.map (·.2)).flatten)

/-- `gitleaks._rule`. -/
def gitleaks_rule (rule : Rule) : GitleaksRule × List Warning :=
  let warn₀ :=
    if rule.analyzers.isSome then [Warning.analyzersIgnoredGitleaks rule.id] else []
  let al := gitleaks_allowlists rule
  ({ id := rule.id
     description := gitleaks_description rule
     path := gitleaks_path rule
     regex := some (match_pattern rule)
     entropy := min_entropy rule
     keywords := gitleaks_keywords rule
     tags := some (gitleaks_tags rule)
     required := gitleaks_required rule
     allowlists := al.1
     skipReport := some (!rule.meta.report) },
   warn₀ ++ al.2)

/-- `gitleaks._config`. -/
def gitleaks_config (rules : List Rule) : GitleaksConfig :=
  { rules := rules.map (fun r => (gitleaks_rule r).1) }

/-! ### C3: the gitleaks allowlist scope priority -/

theorem truthy_guard_getD (x : Option (List α)) :
    (if truthy x then x.getD [] else []) = x.getD [] := by
  rcases x with _ | (_ | ⟨a, l⟩) <;> simp [truthy]

theorem not_truthy_getD (x : Option (List α)) (h : ¬ truthy x = true) :
    x.getD [] = [] := by
  rcases x with _ | (_ | ⟨a, l⟩) <;> simp_all [truthy]

theorem strings_to_pattern_not_truthy (x : Option (List String))
    (h : ¬ truthy x = true) : strings_to_pattern x = none := by
  rcases x with _ | (_ | ⟨s, _ | ⟨t, rest⟩⟩) <;> simp_all [truthy, strings_to_pattern]

theorem truthy_getD_ne_nil (x : Option (List α)) (h : truthy x = true) :
    x.getD [] ≠ [] := by
  rcases x with _ | (_ | ⟨a, l⟩) <;> simp_all [truthy]

theorem strings_to_pattern_truthy_toList_ne_nil (x : Option (List String))
    (h : truthy x = true) : (strings_to_pattern x).toList ≠ [] := by
  rcases x with _ | (_ | ⟨s, _ | ⟨t, rest⟩⟩) <;>
    simp_all [truthy, strings_to_pattern]

/-- The EXCLUDE filter of the §8 gitleaks allowlist example:
`context_strings=["x"]` together with `match_patterns=["y+"]`. -/
def c3Filter : ExcludeFilter :=
  { context_strings := some ["x"], match_patterns := some ["y+"] }

/-- C3: for every EXCLUDE filter the allowlist `regexTarget` is chosen by
priority context > match > target patterns; the patterns of every
populated scope are appended to the one `regexes` list (context's, then
match's, then target's contributions, in that order); a warning is
recorded whenever a populated scope finds the target already chosen; the
concrete filter `context_strings=["x"]`, `match_patterns=["y+"]` yields
`regexTarget=LINE`, patterns from both scopes, and one warning. -/
theorem C3_allowlist_regexes (rule : Rule) (f : ExcludeFilter) :
    ((allowlist_regexes rule f).1.1 =
      (if truthy f.context_patterns || truthy f.context_strings then
        some RegexTarget.line
       else if truthy f.match_patterns || truthy f.match_strings then
        some RegexTarget.matchTgt
       else if truthy f.target_patterns then
        some RegexTarget.secret
       else none)) ∧
    ((allowlist_regexes rule f).1.2 =
      orNone
        ((f.context_patterns.getD [] ++ (strings_to_pattern f.context_strings).toList)
          ++ (f.match_patterns.getD [] ++ (strings_to_pattern f.match_strings).toList)
          ++ f.target_patterns.getD [])) ∧
    ((allowlist_regexes rule f).2 =
      (if (truthy f.match_patterns || truthy f.match_strings)
          && (truthy f.context_patterns || truthy f.context_strings) then
        [Warning.matchWithTarget RegexTarget.line]
       else [])
      ++ (if truthy f.target_patterns
            && (truthy f.context_patterns || truthy f.context_strings
                || truthy f.match_patterns || truthy f.match_strings) then
        [Warning.targetWithTarget
          (if truthy f.context_patterns || truthy f.context_strings then
            RegexTarget.line
           else RegexTarget.matchTgt)]
       else [])) ∧
    ((allowlist_regexes bareRule c3Filter).1.1 = some RegexTarget.line ∧
     (allowlist_regexes bareRule c3Filter).1.2 = some ["(?i)x", "y+"] ∧
     (allowlist_regexes bareRule c3Filter).2 =
       [Warning.matchWithTarget RegexTarget.line]) := by
  refine ⟨?_, ?_, ?_, by decide, by decide, by decide⟩
  all_goals
    simp only [allowlist_regexes]
    by_cases h1 : truthy f.context_patterns
    <;> by_cases h2 : truthy f.context_strings
    <;> by_cases h3 : truthy f.match_patterns
    <;> by_cases h4 : truthy f.match_strings
    <;> by_cases h5 : truthy f.target_patterns
    <;> simp_all [truthy_guard_getD, not_truthy_getD, strings_to_pattern_not_truthy,
          truthy_getD_ne_nil, strings_to_pattern_truthy_toList_ne_nil, orNone,
          List.isEmpty_iff, List.append_assoc]

/-! ### `targets/github.py` -/

/-- A JSON-like value: the result of pydantic `model_dump(mode="json")`
before text serialization.  The out-of-scope text serializers
(`json.dumps`, `yaml.dump`, `tomlkit.dumps`) render this value without
changing its structure. -/
inductive J
  | null
  | bool (b : Bool)
  | num (q : ℚ)
  | str (s : String)
  | arr (xs : List J)
  | obj (kvs : List (String × J))

/-- The target-strings field of the `Filter` union. -/
def Filter.target_strings : Filter → Option (List String)
  | .require f => f.target_strings
  | .exclude f => f.target_strings

/-- The `StrEnum` values of `github._PostProcessingRule`. -/
def postProcessingRuleStr : FilterKind → String
  | .require => "must_match"
  | .exclude => "must_not_match"

/-- The `post_proc_patterns` list gathered for one filter in the loop of
`github._pattern`: the target-strings pattern (if truthy) plus, for
EXCLUDE filters, the target patterns. -/
def githubFilterPatterns (f : Filter) : List Pattern :=
  (match strings_to_pattern (Filter.target_strings f) with
   | some sp => if sp = "" then [] else [sp]
   | none => [])
  ++ (match f with
      | .exclude e =>
        if truthy e.target_patterns then e.target_patterns.getD [] else []
      | .require _ => [])

/-- One `enumerate` iteration of the loop in `github._pattern`: emit the
indexed pair, or warn and skip when no pattern was gathered. -/
def github_filter_step (ruleId : String)
    (acc : List (String × J) × List Warning) (p : Nat × Filter) :
    List (String × J) × List Warning :=
  match or_patterns (githubFilterPatterns p.2) with
  | none => (acc.1, acc.2 ++ [Warning.skippingFilter ruleId])
  | some pat =>
    (acc.1
      ++ [("post_processing_" ++ toString p.1, J.str pat),
          ("post_processing_rule_" ++ toString p.1,
            J.str (postProcessingRuleStr p.2.kind))],
     acc.2)

/-- `github._pattern`: the per-rule mapping (a plain Python dict) plus the
warnings of the loop.  The dict holds the raw optional prefix/suffix
values: pydantic's `exclude_none` drops `None`-valued *model fields* but
not entries of a `dict[str, Any]` field, so an absent affix stays as an
explicit `null` entry. -/
def github_pattern (rule : Rule) : List (String × J) × List Warning :=
  let base : List (String × J) :=
    [("secret_format", J.str rule.target.pattern),
     ("before_secret",
       match rule.target.prefix_pattern with
       | some p => J.str p
       | none => J.null),
     ("after_secret",
       match rule.target.suffix_pattern with
       | some p => J.str p
       | none => J.null)]
  (rule.filters.getD []).enum.foldl (github_filter_step rule.id) (base, [])

/-- `github._config`. -/
def github_config (rules : List Rule) : List (List (String × J)) :=
  rules.map (fun r => (github_pattern r).1)

/-- The document value serialized by `github.translate` via `_dump_json`. -/
def github_dump (rules : List Rule) : J :=
  J.obj [("patterns", J.arr ((github_config rules).map J.obj))]

/-! ### C4: indexed post-processing pairs in the github emitter -/

/-- A rule whose first filter contributes no usable github pattern and
whose second filter does. -/
def c4Rule : Rule :=
  { id := "S3IGAAAAAAAAAAAAAAAD"
    meta := { name := "skip-slot", kind := .unknown }
    target := { pattern := "a+" }
    filters := some [.require {},
                     .require { target_strings := some ["tok"] }] }

/-- C4 counterexample: the first filter is skipped with a warning, yet the
surviving pair is emitted as `post_processing_1` and no `post_processing_0`
exists — a skipped filter still consumes its `enumerate` index, so the
emitted indices are not consecutive from 0 as the claim states. -/
theorem C4_github_indices_counterexample :
    (github_pattern c4Rule).1.map Prod.fst =
      ["secret_format", "before_secret", "after_secret",
       "post_processing_1", "post_processing_rule_1"] ∧
    ¬ "post_processing_0" ∈ (github_pattern c4Rule).1.map Prod.fst ∧
    (github_pattern c4Rule).2 = [Warning.skippingFilter c4Rule.id] := by
  refine ⟨by decide, by decide, by decide⟩

theorem github_fold_closed (ruleId : String) (l : List (Nat × Filter))
    (acc : List (String × J) × List Warning) :
    l.foldl (github_filter_step ruleId) acc =
      (acc.1 ++ (l.map (fun p =>
          match or_patterns (githubFilterPatterns p.2) with
          | none => []
          | some pat =>
            [("post_processing_" ++ toString p.1, J.str pat),
             ("post_processing_rule_" ++ toString p.1,
               J.str (postProcessingRuleStr p.2.kind))])).flatten,
       acc.2 ++ (l.map (fun p =>
          match or_patterns (githubFilterPatterns p.2) with
          | none => [Warning.skippingFilter ruleId]
          | some _ => [])).flatten) := by
  induction l generalizing acc with
  | nil => simp
  | cons p ps ih =>
    rw [List.foldl_cons, ih]
    rcases h : or_patterns (githubFilterPatterns p.2) with _ | pat <;>
      simp [github_filter_step, h]

/-- C4 (amended): filters are processed in `enumerate` order; each filter
gathering a usable pattern emits the pair
`post_processing_{i}` / `post_processing_rule_{i}` (`must_match` for
REQUIRE, `must_not_match` for EXCLUDE) where `i` is the filter's 0-based
position in the rule's filter list; a filter gathering no pattern is
skipped with a warning but still consumes its position, so the emitted
indices are the positions of the contributing filters and need not be
consecutive or start at 0. -/
theorem C4_github_pattern (rule : Rule) :
    (github_pattern rule).1 =
      [("secret_format", J.str rule.target.pattern),
       ("before_secret",
         match rule.target.prefix_pattern with
         | some p => J.str p
         | none => J.null),
       ("after_secret",
         match rule.target.suffix_pattern with
         | some p => J.str p
         | none => J.null)]
      ++ ((rule.filters.getD []).enum.map (fun p =>
          match or_patterns (githubFilterPatterns p.2) with
          | none => []
          | some pat =>
            [("post_processing_" ++ toString p.1, J.str pat),
             ("post_processing_rule_" ++ toString p.1,
               J.str (postProcessingRuleStr p.2.kind))])).flatten ∧
    (github_pattern rule).2 =
      ((rule.filters.getD []).enum.map (fun p =>
          match or_patterns (githubFilterPatterns p.2) with
          | none => [Warning.skippingFilter rule.id]
          | some _ => [])).flatten := by
  unfold github_pattern
  rw [github_fold_closed]
  exact ⟨rfl, rfl⟩

/-! ### `template.py`: the variable remapper

`map_vars` lives in the source, but its token enumeration comes from the
external liquid parser (an out-of-scope collaborator, spec §4.3/§6): it
walks every expression of the parsed template and collects the bare
variable-reference tokens whose name is a key of the rename table, then
replaces exactly those token spans left to right.  The enumeration is
modelled here as: inside every `\x7b\x7b … \x7d\x7d` expression span, a
sole bare word token (surrounded only by whitespace) is a variable
reference; everything else is left byte-for-byte unchanged. -/

/-- Split the characters following a `\x7b\x7b` opener at the first
`\x7d\x7d` closer, returning the expression characters and the remainder. -/
def takeUntilRBrace : List Char → Option (List Char × List Char)
  | [] => none
  | '\x7d' :: '\x7d' :: rest => some ([], rest)
  | c :: rest =>
    (takeUntilRBrace rest).map (fun p => (c :: p.1, p.2))

def isWordChar (c : Char) : Bool :=
  c.isAlphanum || c == '_'

/-- Replace the variable token inside one expression span when it is a
bare word present in the rename table, keeping surrounding whitespace. -/
def replaceExprToken (varmap : List (String × String)) (inner : List Char) :
    List Char :=
  let afterLeading := inner.dropWhile Char.isWhitespace
  let leading := inner.takeWhile Char.isWhitespace
  let trailing := (afterLeading.reverse.takeWhile Char.isWhitespace).reverse
  let core := (afterLeading.reverse.dropWhile Char.isWhitespace).reverse
  if core ≠ [] ∧ core.all isWordChar then
    match varmap.lookup (String.mk core) with
    | some new => leading ++ new.toList ++ trailing
    | none => inner
  else inner

def mapVarsAux (varmap : List (String × String)) :
    Nat → List Char → List Char
  | 0, cs => cs
  | _ + 1, [] => []
  | fuel + 1, '\x7b' :: '\x7b' :: rest =>
    (match takeUntilRBrace rest with
     | some (inner, rem) =>
       '\x7b' :: '\x7b' :: (replaceExprToken varmap inner
         ++ '\x7d' :: '\x7d' :: mapVarsAux varmap fuel rem)
     | none => '\x7b' :: '\x7b' :: mapVarsAux varmap fuel rest)
  | fuel + 1, c :: rest => c :: mapVarsAux varmap fuel rest

/-- `template.map_vars` over the modelled token enumeration. -/
def map_vars (tmpl : String) (varmap : List (String × String)) : String :=
  String.mk (mapVarsAux varmap tmpl.length tmpl.toList)

/-! ### `targets/kingfisher.py` -/

/-- `kingfisher.varmap`. -/
def kingfisherVarmap : List (String × String) := [("target", "TOKEN")]

/-- `kingfisher._map_tmpl` (the `None`-propagating overload). -/
def map_tmpl : Option String → Option String
  | none => none
  | some t => some (map_vars t kingfisherVarmap)

/-- `kingfisher._ResponseMatcher`: the tagged union of response matchers.
`_WordMatcher` exists in the source model but is never constructed. -/
inductive ResponseMatcher
  | statusMatch (status : List Nat) (negative : Option Bool)
  | wordMatch (words : List String) (match_all_words : Option Bool)
      (negative : Option Bool)
  | headerMatch (header : String) (expected : List String)
  | jsonValid
  | xmlValid
  | reportResponse (report_response : Option Bool)
deriving DecidableEq, Repr

def isWordMatch : ResponseMatcher → Bool
  | .wordMatch _ _ _ => true
  | _ => false

structure KingfisherRequest where
  method : String
  url : String
  headers : Option (List (String × String)) := none
  body : Option String := none
  response_is_html : Option Bool := none
  response_matcher : Option (List ResponseMatcher) := none
deriving DecidableEq, Repr

structure KingfisherValidationContent where
  request : KingfisherRequest
deriving DecidableEq, Repr

/-- `kingfisher._Validation`; `type` always holds the literal `"Http"`. -/
structure KingfisherValidation where
  type : String
  content : KingfisherValidationContent
deriving DecidableEq, Repr

structure KingfisherRuleRef where
  rule_id : String
  -- the source names this field `variable`, a Lean keyword
  variableName : String
deriving DecidableEq, Repr

structure KingfisherRule where
  name : String
  id : String
  pattern : Pattern
  min_entropy : Option ℚ := none
  confidence : Option Confidence := none
  examples : Option (List String) := none
  references : Option (List String) := none
  visibile : Option Bool := none
  depends_on_rule : Option (List KingfisherRuleRef) := none
  validation : Option KingfisherValidation := none
deriving DecidableEq, Repr

structure KingfisherConfig where
  rules : List KingfisherRule
deriving DecidableEq, Repr

/-- `kingfisher._response_is_html`. -/
def response_is_html (analyzer : Analyzer) : Option Bool :=
  if analyzer.condition.any (fun m => bodySyntaxOf m == some Syntax.html) then
    some true
  else none

/-- The `list(…)` rendering of the Python sets returned by
`_resolve_status`; CPython's iteration order over a set of small ints is
deterministic but unspecified, modelled as ascending. -/
def resolve_status_list (statuses : List (Nat × Nat)) : Bool × List Nat :=
  let r := resolve_status statuses
  (r.1, r.2.sort (· ≤ ·))

/-- The matchers contributed by one condition entry of the loop in
`kingfisher._response_matcher`. -/
def matcherEntries (m : HttpMatcher) : List ResponseMatcher :=
  (match bodySyntaxOf m with
   | some .json => [ResponseMatcher.jsonValid]
   | some .xml => [ResponseMatcher.xmlValid]
   | _ => [])
  ++ (if truthy m.statuses then
        let r := resolve_status_list (m.statuses.getD [])
        [ResponseMatcher.statusMatch r.2 (some r.1)]
      else [])
  ++ (if truthy m.headers then
        (m.headers.getD []).map (fun kv =>
          ResponseMatcher.headerMatch (pyTitle kv.1) kv.2)
      else [])

/-- `kingfisher._response_matcher`. -/
def response_matcher (analyzer : Analyzer) : List ResponseMatcher :=
  (analyzer.condition.map matcherEntries).flatten
  ++ (if analyzer.meta.report then
        [ResponseMatcher.reportResponse (some analyzer.meta.report)]
      else [])

/-- The `_Validation` value built by `kingfisher._validation` from the
selected analyzer. -/
def kingfisherBuildValidation (analyzer : Analyzer) : KingfisherValidation :=
  { type := "Http"
    content :=
      { request :=
          { method := pyUpper
              (match analyzer.action.method with
                | some m => if m = "" then "GET" else m
                | none => "GET")
            url := map_vars analyzer.action.url kingfisherVarmap
            headers := orNone ((analyzer.action.headers.getD []).map
              (fun kv => (pyTitle kv.1, map_vars kv.2 kingfisherVarmap)))
            body := map_tmpl analyzer.action.body
            response_is_html := response_is_html analyzer
            response_matcher := some (response_matcher analyzer) } } }

/-- `kingfisher._validation`. -/
def kingfisher_validation (rule : Rule) :
    Option KingfisherValidation × List Warning :=
  if !truthy rule.analyzers then (none, [])
  else
    let analyzers := rule.analyzers.getD []
    let http_analyzers :=
      analyzers.filter (fun a => a.meta.kind == AnalyzerKind.http)
    let unused_analyzer_count :=
      analyzers.length - (if http_analyzers.isEmpty then 0 else 1)
    let warns₁ :=
      if unused_analyzer_count > 0 then
        [Warning.analyzersNotMapped unused_analyzer_count]
      else []
    match http_analyzers with
    | [] => (none, warns₁)
    | analyzer :: _ =>
      let warns₂ :=
        match analyzer.action.timeout with
        | some t => if t ≠ 0 then [Warning.timeoutIgnored] else []
        | none => []
      (some (kingfisherBuildValidation analyzer), warns₁ ++ warns₂)

/-- `kingfisher._examples`: the positive examples, when `meta.examples`
is present (a pydantic model instance is always truthy). -/
def kingfisher_examples (rule : Rule) : Option (List String) :=
  match rule.meta.examples with
  | some e => e.positive
  | none => none

/-- `kingfisher._depends_on_rule`. -/
def kingfisher_depends_on_rule (rule : Rule) : Option (List KingfisherRuleRef) :=
  if !truthy rule.dependencies then none
  else
    some ((rule.dependencies.getD []).map (fun d =>
      { rule_id := d.rule_id, variableName := d.varname }))

/-- `kingfisher._rule`. -/
def kingfisher_rule (rule : Rule) : KingfisherRule × List Warning :=
  let warns₀ :=
    if truthy rule.filters then [Warning.filtersIgnoredKingfisher rule.id] else []
  let v := kingfisher_validation rule
  ({ name := rule.meta.name
     id := rule.id
     pattern := match_pattern rule
     min_entropy := min_entropy rule
     confidence := rule.meta.confidence
     examples := kingfisher_examples rule
     references := rule.meta.references
     visibile := some rule.meta.report
     depends_on_rule := kingfisher_depends_on_rule rule
     validation := v.1 },
   warns₀ ++ v.2)

/-- `kingfisher._config`. -/
def kingfisher_config (rules : List Rule) : KingfisherConfig :=
  { rules := rules.map (fun r => (kingfisher_rule r).1) }

/-! ### C6: kingfisher validation uses only the first HTTP analyzer -/

/-- The `unused_analyzer_count` computed by `kingfisher._validation`. -/
def unusedCount (rule : Rule) : Nat :=
  (rule.analyzers.getD []).length -
    (if ((rule.analyzers.getD []).filter
        (fun a => a.meta.kind == AnalyzerKind.http)).isEmpty then 0 else 1)

/-- The validation value determined by the HTTP-filtered analyzer list:
`None` when empty, otherwise built from the head alone. -/
def validationValue : List Analyzer → Option KingfisherValidation
  | [] => none
  | analyzer :: _ => some (kingfisherBuildValidation analyzer)

/-- The timeout warning contributed by the selected analyzer, if any. -/
def timeoutWarns : List Analyzer → List Warning
  | [] => []
  | analyzer :: _ =>
    match analyzer.action.timeout with
    | some t => if t ≠ 0 then [Warning.timeoutIgnored] else []
    | none => []

/-- A single closed-form description of `kingfisher._validation`:
the value comes from the head of the HTTP-filtered analyzer list, the
warnings from the unused count and the selected analyzer's timeout. -/
theorem kingfisher_validation_eq (rule : Rule) :
    kingfisher_validation rule =
      (validationValue ((rule.analyzers.getD []).filter
          (fun a => a.meta.kind == AnalyzerKind.http)),
       if truthy rule.analyzers then
         (if 0 < unusedCount rule then
            [Warning.analyzersNotMapped (unusedCount rule)]
          else [])
         ++ timeoutWarns ((rule.analyzers.getD []).filter
              (fun a => a.meta.kind == AnalyzerKind.http))
       else []) := by
  by_cases ht : truthy rule.analyzers
  · unfold kingfisher_validation unusedCount
    simp only [ht, Bool.not_true, Bool.false_eq_true, if_false, if_true, gt_iff_lt]
    rcases hf : (rule.analyzers.getD []).filter
        (fun a => a.meta.kind == AnalyzerKind.http) with _ | ⟨a, rest⟩ <;>
      rw [hf] <;>
      simp [validationValue, timeoutWarns]
  · have hnil : rule.analyzers.getD [] = [] := by
      rcases hl : rule.analyzers with _ | (_ | ⟨x, xs⟩) <;>
        simp_all [truthy]
    unfold kingfisher_validation
    simp [ht, hnil, validationValue]

theorem notMapped_not_mem_timeoutWarns (l : List Analyzer) (m : Nat) :
    Warning.analyzersNotMapped m ∉ timeoutWarns l := by
  rcases l with _ | ⟨a, rest⟩
  · simp [timeoutWarns]
  · simp only [timeoutWarns]
    rcases hto : a.action.timeout with _ | t
    · simp
    · by_cases htz : t ≠ 0 <;> simp [htz]

/-- C6: the kingfisher validation block is `None` when no analyzer of kind
HTTP exists, and otherwise is built from the first HTTP analyzer alone;
when analyzers go unused a single count-based warning carrying their
number is recorded, and no other unmapped-analyzers warning appears. -/
theorem C6_kingfisher_validation (rule : Rule) :
    ((kingfisher_validation rule).1 =
      (match (rule.analyzers.getD []).filter
          (fun a => a.meta.kind == AnalyzerKind.http) with
       | [] => none
       | analyzer :: _ => some (kingfisherBuildValidation analyzer))) ∧
    (((rule.analyzers.getD []).filter
        (fun a => a.meta.kind == AnalyzerKind.http)) = [] →
      (kingfisher_validation rule).1 = none) ∧
    (0 < unusedCount rule →
      (kingfisher_validation rule).2.count
        (Warning.analyzersNotMapped (unusedCount rule)) = 1) ∧
    (∀ m, Warning.analyzersNotMapped m ∈ (kingfisher_validation rule).2 →
      m = unusedCount rule ∧ 0 < unusedCount rule) := by
  rw [kingfisher_validation_eq]
  refine ⟨?_, ?_, ?_, ?_⟩
  · show validationValue _ = _
    rcases hf : (rule.analyzers.getD []).filter
        (fun a => a.meta.kind == AnalyzerKind.http) with _ | ⟨a, rest⟩ <;>
      simp [validationValue]
  · intro h
    show validationValue _ = _
    rw [h]
    rfl
  · intro h
    have ht : truthy rule.analyzers = true := by
      rcases hl : rule.analyzers with _ | (_ | ⟨x, xs⟩) <;>
        simp_all [truthy, unusedCount]
    show List.count _ (if truthy rule.analyzers then _ else _) = 1
    rw [if_pos ht, if_pos h]
    rw [List.count_append]
    have h0 := List.count_eq_zero.mpr
      (notMapped_not_mem_timeoutWarns
        ((rule.analyzers.getD []).filter
          (fun a => a.meta.kind == AnalyzerKind.http)) (unusedCount rule))
    rw [h0]
    simp
  · intro m hm
    simp only [] at hm
    by_cases ht : truthy rule.analyzers
    · rw [if_pos ht] at hm
      rcases List.mem_append.1 hm with hm | hm
      · by_cases h : 0 < unusedCount rule
        · rw [if_pos h] at hm
          simp at hm
          exact ⟨hm, h⟩
        · rw [if_neg h] at hm
          simp at hm
      · exact absurd hm (notMapped_not_mem_timeoutWarns _ m)
    · rw [if_neg ht] at hm
      simp at hm

/-- A rule with two HTTP analyzers; the second goes unused. -/
def twoAnalyzerRule : Rule :=
  { id := "S3IGAAAAAAAAAAAAAAAE"
    meta := { name := "two-analyzers", kind := .unknown }
    target := { pattern := "t[0-9]+" }
    analyzers := some
      [{ meta := { kind := .http, report := true }
         action := { url := "https://api.example.com/check" }
         condition := [] },
       { meta := { kind := .http }
         action := { url := "https://api.example.com/other" }
         condition := [] }] }

/-- Witness for C6: two analyzers, one unused, one count warning. -/
theorem C6_kingfisher_validation_witness :
    0 < unusedCount twoAnalyzerRule ∧
    (kingfisher_validation twoAnalyzerRule).2.count
      (Warning.analyzersNotMapped (unusedCount twoAnalyzerRule)) = 1 :=
  ⟨by decide, (C6_kingfisher_validation twoAnalyzerRule).2.2.1 (by decide)⟩

/-! ### C10: kingfisher never consults body_strings / body_patterns -/

/-- Two condition entries equal in every field the kingfisher emitter
reads (`statuses`, `headers`, `body_syntax`), leaving `body_strings` and
`body_patterns` unconstrained. -/
def matcherEqExceptBody (m₁ m₂ : HttpMatcher) : Prop :=
  m₁.statuses = m₂.statuses ∧ m₁.headers = m₂.headers ∧
  bodySyntaxOf m₁ = bodySyntaxOf m₂

def analyzerEqExceptBody (a₁ a₂ : Analyzer) : Prop :=
  a₁.meta = a₂.meta ∧ a₁.action = a₂.action ∧
  List.Forall₂ matcherEqExceptBody a₁.condition a₂.condition

def optionRel (r : α → α → Prop) : Option α → Option α → Prop
  | none, none => True
  | some a, some b => r a b
  | _, _ => False

/-- Two rules identical except possibly in the `body_strings` /
`body_patterns` fields of their HttpMatcher condition entries. -/
def ruleEqExceptBody (r₁ r₂ : Rule) : Prop :=
  r₁.id = r₂.id ∧ r₁.meta = r₂.meta ∧ r₁.dependencies = r₂.dependencies ∧
  r₁.target = r₂.target ∧ r₁.filters = r₂.filters ∧
  optionRel (List.Forall₂ analyzerEqExceptBody) r₁.analyzers r₂.analyzers

theorem matcherEntries_congr (m₁ m₂ : HttpMatcher)
    (h : matcherEqExceptBody m₁ m₂) : matcherEntries m₁ = matcherEntries m₂ := by
  obtain ⟨h1, h2, h3⟩ := h
  simp only [matcherEntries, h1, h2, h3]

theorem response_is_html_congr (a₁ a₂ : Analyzer)
    (h : analyzerEqExceptBody a₁ a₂) :
    response_is_html a₁ = response_is_html a₂ := by
  obtain ⟨hm, ha, hc⟩ := h
  unfold response_is_html
  have hany : ∀ (l₁ l₂ : List HttpMatcher),
      List.Forall₂ matcherEqExceptBody l₁ l₂ →
      l₁.any (fun m => bodySyntaxOf m == some Syntax.html)
      = l₂.any (fun m => bodySyntaxOf m == some Syntax.html) := by
    intro l₁ l₂ hrel
    induction hrel with
    | nil => rfl
    | cons hrel _ ih => simp [List.any_cons, hrel.2.2, ih]
  rw [hany _ _ hc]

theorem response_matcher_congr (a₁ a₂ : Analyzer)
    (h : analyzerEqExceptBody a₁ a₂) :
    response_matcher a₁ = response_matcher a₂ := by
  obtain ⟨hm, ha, hc⟩ := h
  unfold response_matcher
  rw [hm]
  have hmap : ∀ (l₁ l₂ : List HttpMatcher),
      List.Forall₂ matcherEqExceptBody l₁ l₂ →
      (l₁.map matcherEntries).flatten = (l₂.map matcherEntries).flatten := by
    intro l₁ l₂ hrel
    induction hrel with
    | nil => rfl
    | cons hrel _ ih => simp [matcherEntries_congr _ _ hrel, ih]
  rw [hmap _ _ hc]

theorem buildValidation_congr (a₁ a₂ : Analyzer)
    (h : analyzerEqExceptBody a₁ a₂) :
    kingfisherBuildValidation a₁ = kingfisherBuildValidation a₂ := by
  have hm := h.1
  have ha := h.2.1
  unfold kingfisherBuildValidation
  rw [ha, response_is_html_congr a₁ a₂ h, response_matcher_congr a₁ a₂ h]

theorem matcherEntries_no_word (mm : HttpMatcher) :
    ∀ m ∈ matcherEntries mm, isWordMatch m = false := by
  intro m hm
  unfold matcherEntries at hm
  simp only [List.mem_append] at hm
  rcases hm with (hm | hm) | hm
  · rcases hbs : bodySyntaxOf mm with _ | s
    · rw [hbs] at hm
      simp at hm
    · rcases s
      · rw [hbs] at hm
        simp at hm
      · rw [hbs] at hm
        simp at hm
        subst hm
        rfl
      · rw [hbs] at hm
        simp at hm
        subst hm
        rfl
  · by_cases hs : truthy mm.statuses
    · rw [if_pos hs] at hm
      simp at hm
      subst hm
      rfl
    · rw [if_neg hs] at hm
      simp at hm
  · by_cases hh : truthy mm.headers
    · rw [if_pos hh] at hm
      rcases List.mem_map.1 hm with ⟨kv, -, rfl⟩
      rfl
    · rw [if_neg hh] at hm
      simp at hm

theorem response_matcher_no_word (a : Analyzer) :
    ∀ m ∈ response_matcher a, isWordMatch m = false := by
  intro m hm
  unfold response_matcher at hm
  rcases List.mem_append.1 hm with hm | hm
  · rcases List.mem_flatten.1 hm with ⟨l, hl, hml⟩
    rcases List.mem_map.1 hl with ⟨mm, -, rfl⟩
    exact matcherEntries_no_word mm m hml
  · by_cases hr : a.meta.report
    · rw [if_pos hr] at hm
      simp at hm
      subst hm
      rfl
    · rw [if_neg hr] at hm
      simp at hm

theorem filter_forall₂ {r : α → α → Prop} {p : α → Bool}
    (hp : ∀ a b, r a b → p a = p b) :
    ∀ {l₁ l₂ : List α}, List.Forall₂ r l₁ l₂ →
      List.Forall₂ r (l₁.filter p) (l₂.filter p) := by
  intro l₁ l₂ h
  induction h with
  | nil => exact List.Forall₂.nil
  | @cons a b t₁ t₂ hab _ ih =>
    rw [List.filter_cons, List.filter_cons, hp a b hab]
    by_cases hpb : p b = true
    · simp only [hpb, if_true]
      exact List.Forall₂.cons hab ih
    · simp only [hpb, if_false]
      exact ih

theorem kingfisher_validation_congr (r₁ r₂ : Rule) (h : ruleEqExceptBody r₁ r₂) :
    kingfisher_validation r₁ = kingfisher_validation r₂ := by
  obtain ⟨hid, hmeta, hdep, htgt, hfil, han⟩ := h
  rw [kingfisher_validation_eq, kingfisher_validation_eq]
  rcases h₁ : r₁.analyzers with _ | l₁ <;> rcases h₂ : r₂.analyzers with _ | l₂ <;>
    rw [h₁, h₂] at han <;> simp only [optionRel] at han
  · rfl
  · simp only [Option.getD_some]
    have hlen := List.Forall₂.length_eq han
    have hfl := filter_forall₂ (r := analyzerEqExceptBody)
      (p := fun a => a.meta.kind == AnalyzerKind.http)
      (fun a b hr => by
        show (a.meta.kind == AnalyzerKind.http) = (b.meta.kind == AnalyzerKind.http)
        rw [hr.1]) han
    have hflen := List.Forall₂.length_eq hfl
    have htr : truthy (some l₁) = truthy (some l₂) := by
      rcases l₁ with _ | _ <;> rcases l₂ with _ | _ <;> simp_all [truthy]
    have hemp : (l₁.filter (fun a => a.meta.kind == AnalyzerKind.http)).isEmpty
        = (l₂.filter (fun a => a.meta.kind == AnalyzerKind.http)).isEmpty := by
      rcases hx : l₁.filter (fun a => a.meta.kind == AnalyzerKind.http) with _ | _ <;>
        rcases hy : l₂.filter (fun a => a.meta.kind == AnalyzerKind.http) with _ | _ <;>
          simp_all
    have huc : unusedCount r₁ = unusedCount r₂ := by
      unfold unusedCount
      rw [h₁, h₂]
      simp only [Option.getD_some]
      rw [hlen]
      simp only [hemp]
    have hvt : (validationValue
          (l₁.filter (fun a => a.meta.kind == AnalyzerKind.http))
        = validationValue
          (l₂.filter (fun a => a.meta.kind == AnalyzerKind.http))) ∧
        (timeoutWarns (l₁.filter (fun a => a.meta.kind == AnalyzerKind.http))
        = timeoutWarns (l₂.filter (fun a => a.meta.kind == AnalyzerKind.http))) := by
      rcases hx : l₁.filter (fun a => a.meta.kind == AnalyzerKind.http)
          with _ | ⟨a₁', t₁'⟩ <;>
        rcases hy : l₂.filter (fun a => a.meta.kind == AnalyzerKind.http)
          with _ | ⟨a₂', t₂'⟩ <;>
        rw [hx, hy] at hfl ⊢
      · exact ⟨rfl, rfl⟩
      · cases hfl
      · cases hfl
      · rcases hfl with _ | ⟨hab, -⟩
        constructor
        · simp only [validationValue]
          rw [buildValidation_congr a₁' a₂' hab]
        · simp only [timeoutWarns]
          rw [hab.2.1]
    rw [htr, huc, hvt.1, hvt.2]

/-- C10: two rules identical except in the `body_strings`/`body_patterns`
fields of their HttpMatcher condition entries lower to the same kingfisher
rule with the same warnings (so the fields affect nothing and no warning
mentions them), and the emitted response matchers never include a
word-match matcher. -/
theorem C10_kingfisher_body_fields (r₁ r₂ : Rule) (h : ruleEqExceptBody r₁ r₂) :
    kingfisher_rule r₁ = kingfisher_rule r₂ ∧
    (∀ v, (kingfisher_rule r₁).1.validation = some v →
      ∀ m ∈ v.content.request.response_matcher.getD [],
        isWordMatch m = false) := by
  obtain ⟨hid, hmeta, hdep, htgt, hfil, han⟩ := h
  have hv := kingfisher_validation_congr r₁ r₂ ⟨hid, hmeta, hdep, htgt, hfil, han⟩
  constructor
  · have hmp : match_pattern r₁ = match_pattern r₂ := by
      unfold match_pattern
      rw [htgt]
    have hme : min_entropy r₁ = min_entropy r₂ := by
      unfold min_entropy required_filters
      rw [hfil]
    have hex : kingfisher_examples r₁ = kingfisher_examples r₂ := by
      unfold kingfisher_examples
      rw [hmeta]
    have hdp : kingfisher_depends_on_rule r₁ = kingfisher_depends_on_rule r₂ := by
      unfold kingfisher_depends_on_rule
      rw [hdep]
    unfold kingfisher_rule
    rw [hv, hid, hmeta, hfil, hmp, hme, hex, hdp]
  · intro v hval m hm
    have hval' : (kingfisher_validation r₁).1 = some v := hval
    rw [kingfisher_validation_eq] at hval'
    rcases hf : (r₁.analyzers.getD []).filter
        (fun a => a.meta.kind == AnalyzerKind.http) with _ | ⟨a, rest⟩
    · rw [hf] at hval'
      exact absurd hval' (by simp [validationValue])
    · rw [hf] at hval'
      simp only [validationValue, Option.some.injEq] at hval'
      subst hval'
      have hm' : m ∈ response_matcher a := by
        simpa [kingfisherBuildValidation] using hm
      exact response_matcher_no_word a m hm'

/-- Two rules differing only in the body fields of a condition entry. -/
def bodyRuleA : Rule :=
  { id := "S3IGAAAAAAAAAAAAAAAF"
    meta := { name := "body-a", kind := .unknown }
    target := { pattern := "b[0-9]+" }
    analyzers := some
      [{ meta := { kind := .http }
         action := { url := "https://api.example.com/v" }
         condition := [{ body_strings := some ["ok"] }] }] }

def bodyRuleB : Rule :=
  { id := "S3IGAAAAAAAAAAAAAAAF"
    meta := { name := "body-a", kind := .unknown }
    target := { pattern := "b[0-9]+" }
    analyzers := some
      [{ meta := { kind := .http }
         action := { url := "https://api.example.com/v" }
         condition := [{ body_patterns := some ["e.*"] }] }] }

/-- Witness for C10 at two rules differing only in a condition entry's
body fields. -/
theorem C10_kingfisher_body_fields_witness :
    ruleEqExceptBody bodyRuleA bodyRuleB ∧
    kingfisher_rule bodyRuleA = kingfisher_rule bodyRuleB := by
  have hrel : ruleEqExceptBody bodyRuleA bodyRuleB := by
    refine ⟨rfl, rfl, rfl, rfl, rfl, ?_⟩
    show List.Forall₂ analyzerEqExceptBody _ _
    exact List.Forall₂.cons
      ⟨rfl, rfl, List.Forall₂.cons ⟨rfl, rfl, rfl⟩ List.Forall₂.nil⟩
      List.Forall₂.nil
  exact ⟨hrel, (C10_kingfisher_body_fields bodyRuleA bodyRuleB hrel).1⟩

/-! ### `targets/trufflehog.py` -/

structure TrufflehogVerify where
  endpoint : String
  -- the source names this field `unsafe`; that name is avoided here
  unsafeFlag : Option Bool := none
  headers : Option (List String) := none
deriving DecidableEq, Repr

structure TrufflehogDetector where
  name : String
  keywords : Option (List String) := none
  regex : List (String × Pattern)
  entropy : Option ℚ := none
  exclude_words : Option (List String) := none
  exclude_regexes_match : Option (List Pattern) := none
  verify : Option (List TrufflehogVerify) := none
deriving DecidableEq, Repr

structure TrufflehogConfig where
  detectors : List TrufflehogDetector
deriving DecidableEq, Repr

/-- `trufflehog._keywords` is textually identical to `gitleaks._keywords`
in the source; it is shared here. -/
def trufflehog_keywords (rule : Rule) : Option (List String) :=
  gitleaks_keywords rule

/-- `trufflehog._exclude_words`: the EXCLUDE filters' literal target
strings, concatenated. -/
def trufflehog_exclude_words (rule : Rule) : Option (List String) :=
  let exc_filters := excluded_filters rule
  if exc_filters.isEmpty then none
  else
    orNone (((exc_filters.filter (fun f => truthy f.target_strings)).map
      (fun f => f.target_strings.getD [])).flatten)

/-- `trufflehog._exclude_regexes_match`: match patterns plus the
match-strings alternation, per EXCLUDE filter. -/
def trufflehog_exclude_regexes_match (rule : Rule) : Option (List Pattern) :=
  let exc_filters := excluded_filters rule
  if exc_filters.isEmpty then none
  else
    orNone ((exc_filters.map (fun f =>
      (if truthy f.match_patterns then f.match_patterns.getD [] else [])
      ++ (match strings_to_pattern f.match_strings with
          | some sp => if sp = "" then [] else [sp]
          | none => []))).flatten)

/-- The scheme of the pydantic `HttpUrl`, modelled on its string form. -/
def url_scheme (u : String) : String :=
  String.mk (u.toList.takeWhile (fun c => c ≠ ':'))

/-- `trufflehog._verify`: one entry per HTTP analyzer (all of them, not
just the first); non-HTTP analyzers are skipped with a warning. -/
def trufflehog_verify (rule : Rule) :
    Option (List TrufflehogVerify) × List Warning :=
  if !truthy rule.analyzers then (none, [])
  else
    let results := (rule.analyzers.getD []).map (fun analyzer =>
      if analyzer.meta.kind != AnalyzerKind.http then
        (([] : List TrufflehogVerify),
         [Warning.unsupportedAnalyzerKind analyzer.meta.kind])
      else
        ([{ endpoint := analyzer.action.url
            unsafeFlag :=
              if url_scheme analyzer.action.url = "http" then some true else none
            headers :=
              if !truthy analyzer.action.headers then none
              else some ((analyzer.action.headers.getD []).map
                (fun kv => kv.1 ++ ": " ++ kv.2)) }], []))
    (orNone ((results.map (·.1)).flatten), (results.map (·.2)).flatten)

/-- `trufflehog._detector`. -/
def trufflehog_detector (rule : Rule) : TrufflehogDetector × List Warning :=
  let v := trufflehog_verify rule
  ({ name := rule.id
     keywords := trufflehog_keywords rule
     regex := [("target", match_pattern rule)]
     entropy := min_entropy rule
     exclude_words := trufflehog_exclude_words rule
     exclude_regexes_match := trufflehog_exclude_regexes_match rule
     verify := v.1 }, v.2)

/-- `trufflehog._config`. -/
def trufflehog_config (rules : List Rule) : TrufflehogConfig :=
  { detectors := rules.map (fun r => (trufflehog_detector r).1) }

/-! ### `targets/noseyparker.py` -/

structure NoseyparkerRule where
  name : String
  id : String
  pattern : Pattern
  examples : Option (List String) := none
  negative_examples : Option (List String) := none
  categories : Option (List String) := none
  description : Option String := none
  references : Option (List String) := none
deriving DecidableEq, Repr

structure NoseyparkerConfig where
  rules : List NoseyparkerRule
deriving DecidableEq, Repr

/-- `noseyparker._examples`. -/
def noseyparker_examples (rule : Rule) : Option (List String) :=
  match rule.meta.examples with
  | some e => e.positive
  | none => none

/-- `noseyparker._negative_examples`. -/
def noseyparker_negative_examples (rule : Rule) : Option (List String) :=
  match rule.meta.examples with
  | some e => e.negative
  | none => none

/-- `noseyparker._rule`. -/
def noseyparker_rule (rule : Rule) : NoseyparkerRule × List Warning :=
  let warns :=
    (if truthy rule.dependencies then
      [Warning.dependenciesIgnoredNoseyparker rule.id] else [])
    ++ (if truthy rule.filters then
      [Warning.filtersIgnoredNoseyparker rule.id] else [])
    ++ (if truthy rule.analyzers then
      [Warning.analyzersIgnoredNoseyparker rule.id] else [])
  ({ name := rule.meta.name
     id := rule.id
     pattern := match_pattern rule
     examples := noseyparker_examples rule
     negative_examples := noseyparker_negative_examples rule
     categories := rule.meta.tags
     description := rule.meta.description
     references := rule.meta.references }, warns)

/-- `noseyparker._config`. -/
def noseyparker_config (rules : List Rule) : NoseyparkerConfig :=
  { rules := rules.map (fun r => (noseyparker_rule r).1) }

/-! ### C9: every emitter is an order-preserving per-rule map -/

/-- C9: each backend document holds exactly one entry per input rule, in
input order, and the i-th entry is the per-rule lowering of the i-th
input rule alone — so no other rule of the list can influence it. -/
theorem C9_per_rule_map (rules : List Rule) (i : Nat) :
    ((gitleaks_config rules).rules.length = rules.length ∧
     (gitleaks_config rules).rules[i]? =
       (rules[i]?).map (fun r => (gitleaks_rule r).1)) ∧
    ((kingfisher_config rules).rules.length = rules.length ∧
     (kingfisher_config rules).rules[i]? =
       (rules[i]?).map (fun r => (kingfisher_rule r).1)) ∧
    ((trufflehog_config rules).detectors.length = rules.length ∧
     (trufflehog_config rules).detectors[i]? =
       (rules[i]?).map (fun r => (trufflehog_detector r).1)) ∧
    ((noseyparker_config rules).rules.length = rules.length ∧
     (noseyparker_config rules).rules[i]? =
       (rules[i]?).map (fun r => (noseyparker_rule r).1)) ∧
    ((github_config rules).length = rules.length ∧
     (github_config rules)[i]? =
       (rules[i]?).map (fun r => (github_pattern r).1)) := by
  refine ⟨⟨?_, ?_⟩, ⟨?_, ?_⟩, ⟨?_, ?_⟩, ⟨?_, ?_⟩, ⟨?_, ?_⟩⟩ <;>
    simp [gitleaks_config, kingfisher_config, trufflehog_config,
      noseyparker_config, github_config, List.getElem?_map]

/-! ### Serialization: pydantic `model_dump(mode="json", exclude_none=True)`

`exclude_none` removes `None`-valued model *fields* (pydantic documents
the option as applying to fields); entries of a plain `dict` field — the
github per-rule mapping — pass through unchanged, `None` values included.
The functions below spell out the dumped value of each backend document;
the out-of-scope text serializers render it without structural change. -/

/-- One dumped entry for an optional model field: omitted when absent. -/
def optEntry (k : String) (f : α → J) : Option α → List (String × J)
  | none => []
  | some v => [(k, f v)]

def jStrList (l : List String) : J := J.arr (l.map J.str)

def jPairs (f : α → J) (l : List (String × α)) : J :=
  J.obj (l.map (fun kv => (kv.1, f kv.2)))

def regexTargetStr : RegexTarget → String
  | .line => "line"
  | .matchTgt => "match"
  | .secret => "secret"

def allowlistConditionStr : AllowlistCondition → String
  | .and => "and"
  | .or => "or"

def dumpGitleaksAllowlist (a : GitleaksAllowlist) : J :=
  J.obj
    ([("condition", J.str (allowlistConditionStr a.condition))]
     ++ optEntry "regexTarget" (fun t => J.str (regexTargetStr t)) a.regexTarget
     ++ optEntry "paths" jStrList a.paths
     ++ optEntry "regexes" jStrList a.regexes
     ++ optEntry "stopwords" jStrList a.stopwords)

def dumpGitleaksRequired (r : GitleaksRequired) : J :=
  J.obj
    ([("id", J.str r.id)]
     ++ optEntry "withinLines" (fun n : Nat => J.num (n : ℚ)) r.withinLines
     ++ optEntry "withinColumns" (fun n : Nat => J.num (n : ℚ)) r.withinColumns)

def dumpGitleaksRule (r : GitleaksRule) : J :=
  J.obj
    ([("id", J.str r.id)]
     ++ optEntry "description" J.str r.description
     ++ optEntry "path" J.str r.path
     ++ optEntry "regex" J.str r.regex
     ++ optEntry "entropy" J.num r.entropy
     ++ optEntry "keywords" jStrList r.keywords
     ++ optEntry "tags" jStrList r.tags
     ++ optEntry "skipReport" J.bool r.skipReport
     ++ optEntry "allowlists" (fun l => J.arr (l.map dumpGitleaksAllowlist))
          r.allowlists
     ++ optEntry "required" (fun l => J.arr (l.map dumpGitleaksRequired))
          r.required)

def gitleaks_dump (rules : List Rule) : J :=
  J.obj [("rules", J.arr ((gitleaks_config rules).rules.map dumpGitleaksRule))]

def dumpResponseMatcher : ResponseMatcher → J
  | .statusMatch status negative =>
    J.obj ([("type", J.str "StatusMatch"),
            ("status", J.arr (status.map (fun n : Nat => J.num (n : ℚ))))]
           ++ optEntry "negative" J.bool negative)
  | .wordMatch words maw negative =>
    J.obj ([("type", J.str "WordMatch"), ("words", jStrList words)]
           ++ optEntry "match_all_words" J.bool maw
           ++ optEntry "negative" J.bool negative)
  | .headerMatch header expected =>
    J.obj [("type", J.str "HeaderMatch"), ("header", J.str header),
           ("expected", jStrList expected)]
  | .jsonValid => J.obj [("type", J.str "JsonValid")]
  | .xmlValid => J.obj [("type", J.str "XmlValid")]
  | .reportResponse rr =>
    J.obj ([("type", J.str "ReportResponse")]
           ++ optEntry "report_response" J.bool rr)

def dumpKingfisherRequest (r : KingfisherRequest) : J :=
  J.obj
    ([("method", J.str r.method), ("url", J.str r.url)]
     ++ optEntry "headers" (jPairs J.str) r.headers
     ++ optEntry "body" J.str r.body
     ++ optEntry "response_is_html" J.bool r.response_is_html
     ++ optEntry "response_matcher"
          (fun l => J.arr (l.map dumpResponseMatcher)) r.response_matcher)

def dumpKingfisherValidation (v : KingfisherValidation) : J :=
  J.obj [("type", J.str v.type),
         ("content", J.obj [("request", dumpKingfisherRequest v.content.request)])]

def dumpKingfisherRuleRef (r : KingfisherRuleRef) : J :=
  J.obj [("rule_id", J.str r.rule_id), ("variable", J.str r.variableName)]

def dumpKingfisherRule (r : KingfisherRule) : J :=
  J.obj
    ([("name", J.str r.name), ("id", J.str r.id), ("pattern", J.str r.pattern)]
     ++ optEntry "min_entropy" J.num r.min_entropy
     ++ optEntry "confidence" (fun c => J.str (confidenceStr c)) r.confidence
     ++ optEntry "examples" jStrList r.examples
     ++ optEntry "references" jStrList r.references
     ++ optEntry "visibile" J.bool r.visibile
     ++ optEntry "depends_on_rule"
          (fun l => J.arr (l.map dumpKingfisherRuleRef)) r.depends_on_rule
     ++ optEntry "validation" dumpKingfisherValidation r.validation)

def kingfisher_dump (rules : List Rule) : J :=
  J.obj [("rules", J.arr ((kingfisher_config rules).rules.map dumpKingfisherRule))]

def dumpTrufflehogVerify (v : TrufflehogVerify) : J :=
  J.obj
    ([("endpoint", J.str v.endpoint)]
     ++ optEntry "unsafe" J.bool v.unsafeFlag
     ++ optEntry "headers" jStrList v.headers)

def dumpTrufflehogDetector (d : TrufflehogDetector) : J :=
  J.obj
    ([("name", J.str d.name)]
     ++ optEntry "keywords" jStrList d.keywords
     ++ [("regex", jPairs J.str d.regex)]
     ++ optEntry "entropy" J.num d.entropy
     ++ optEntry "exclude_words" jStrList d.exclude_words
     ++ optEntry "exclude_regexes_match" jStrList d.exclude_regexes_match
     ++ optEntry "verify" (fun l => J.arr (l.map dumpTrufflehogVerify)) d.verify)

def trufflehog_dump (rules : List Rule) : J :=
  J.obj [("detectors",
    J.arr ((trufflehog_config rules).detectors.map dumpTrufflehogDetector))]

def dumpNoseyparkerRule (r : NoseyparkerRule) : J :=
  J.obj
    ([("name", J.str r.name), ("id", J.str r.id), ("pattern", J.str r.pattern)]
     ++ optEntry "examples" jStrList r.examples
     ++ optEntry "negative_examples" jStrList r.negative_examples
     ++ optEntry "categories" jStrList r.categories
     ++ optEntry "description" J.str r.description
     ++ optEntry "references" jStrList r.references)

def noseyparker_dump (rules : List Rule) : J :=
  J.obj [("rules",
    J.arr ((noseyparker_config rules).rules.map dumpNoseyparkerRule))]

/-! ### C8: no explicit nulls — except the github per-rule dict -/

mutual
def hasNull : J → Bool
  | .null => true
  | .bool _ => false
  | .num _ => false
  | .str _ => false
  | .arr xs => hasNullList xs
  | .obj kvs => hasNullObj kvs

def hasNullList : List J → Bool
  | [] => false
  | x :: xs => hasNull x || hasNullList xs

def hasNullObj : List (String × J) → Bool
  | [] => false
  | kv :: kvs => hasNull kv.2 || hasNullObj kvs
end

theorem hasNull_str (x : String) : hasNull (J.str x) = false := rfl

theorem hasNull_bool (b : Bool) : hasNull (J.bool b) = false := rfl

theorem hasNull_num (q : ℚ) : hasNull (J.num q) = false := rfl

theorem hasNull_arr (xs : List J) : hasNull (J.arr xs) = hasNullList xs := rfl

theorem hasNull_obj (kvs : List (String × J)) :
    hasNull (J.obj kvs) = hasNullObj kvs := rfl

theorem hasNullObj_nil : hasNullObj [] = false := rfl

theorem hasNullObj_cons (kv : String × J) (kvs : List (String × J)) :
    hasNullObj (kv :: kvs) = (hasNull kv.2 || hasNullObj kvs) := rfl

theorem hasNullObj_append (a b : List (String × J)) :
    hasNullObj (a ++ b) = (hasNullObj a || hasNullObj b) := by
  induction a with
  | nil => rfl
  | cons kv kvs ih => simp [hasNullObj_cons, ih, Bool.or_assoc]

theorem hasNullObj_optEntry (k : String) (f : α → J)
    (hf : ∀ v, hasNull (f v) = false) (o : Option α) :
    hasNullObj (optEntry k f o) = false := by
  rcases o with _ | v
  · rfl
  · simp [optEntry, hasNullObj_cons, hasNullObj_nil, hf]

theorem hasNullList_map (f : α → J) (hf : ∀ v, hasNull (f v) = false)
    (l : List α) : hasNullList (l.map f) = false := by
  induction l with
  | nil => rfl
  | cons x xs ih =>
    show (hasNull (f x) || hasNullList (xs.map f)) = false
    simp [hf, ih]

theorem hasNull_jStrList (l : List String) : hasNull (jStrList l) = false :=
  hasNullList_map J.str (fun _ => rfl) l

theorem hasNull_jPairs (f : α → J) (hf : ∀ v, hasNull (f v) = false)
    (l : List (String × α)) : hasNull (jPairs f l) = false := by
  show hasNullObj (l.map (fun kv => (kv.1, f kv.2))) = false
  induction l with
  | nil => rfl
  | cons kv kvs ih => simp [hasNullObj_cons, hf, ih]

theorem optEntry_str_no_null (k : String) (o : Option String) :
    hasNullObj (optEntry k J.str o) = false :=
  hasNullObj_optEntry k J.str (fun _ => rfl) o

theorem optEntry_bool_no_null (k : String) (o : Option Bool) :
    hasNullObj (optEntry k J.bool o) = false :=
  hasNullObj_optEntry k J.bool (fun _ => rfl) o

theorem optEntry_num_no_null (k : String) (o : Option ℚ) :
    hasNullObj (optEntry k J.num o) = false :=
  hasNullObj_optEntry k J.num (fun _ => rfl) o

theorem optEntry_natnum_no_null (k : String) (o : Option Nat) :
    hasNullObj (optEntry k (fun n : Nat => J.num (n : ℚ)) o) = false :=
  hasNullObj_optEntry k (fun n : Nat => J.num (n : ℚ)) (fun _ => rfl) o

theorem optEntry_strList_no_null (k : String) (o : Option (List String)) :
    hasNullObj (optEntry k jStrList o) = false :=
  hasNullObj_optEntry k jStrList hasNull_jStrList o

theorem optEntry_arrMap_no_null (f : α → J) (hf : ∀ v, hasNull (f v) = false)
    (k : String) (o : Option (List α)) :
    hasNullObj (optEntry k (fun l => J.arr (l.map f)) o) = false := by
  rcases o with _ | l
  · rfl
  · show (hasNull (J.arr (l.map f)) || hasNullObj []) = false
    simp [hasNull_arr, hasNullObj_nil, hasNullList_map f hf]

theorem dumpGitleaksAllowlist_no_null (a : GitleaksAllowlist) :
    hasNull (dumpGitleaksAllowlist a) = false := by
  simp [dumpGitleaksAllowlist, hasNull_obj, hasNullObj_append, hasNullObj_cons,
    hasNullObj_nil, hasNull_str, optEntry_strList_no_null,
    hasNullObj_optEntry _ _ (fun t => hasNull_str (regexTargetStr t))]

theorem dumpGitleaksRequired_no_null (r : GitleaksRequired) :
    hasNull (dumpGitleaksRequired r) = false := by
  simp [dumpGitleaksRequired, hasNull_obj, hasNullObj_append, hasNullObj_cons,
    hasNullObj_nil, hasNull_str, optEntry_natnum_no_null]

theorem dumpGitleaksRule_no_null (r : GitleaksRule) :
    hasNull (dumpGitleaksRule r) = false := by
  simp [dumpGitleaksRule, hasNull_obj, hasNullObj_append, hasNullObj_cons,
    hasNullObj_nil, hasNull_str, optEntry_str_no_null, optEntry_num_no_null,
    optEntry_bool_no_null, optEntry_strList_no_null,
    optEntry_arrMap_no_null dumpGitleaksAllowlist dumpGitleaksAllowlist_no_null,
    optEntry_arrMap_no_null dumpGitleaksRequired dumpGitleaksRequired_no_null]

theorem dumpResponseMatcher_no_null (m : ResponseMatcher) :
    hasNull (dumpResponseMatcher m) = false := by
  rcases m <;>
    simp [dumpResponseMatcher, hasNull_obj, hasNullObj_append, hasNullObj_cons,
      hasNullObj_nil, hasNull_str, hasNull_arr, hasNull_jStrList,
      optEntry_bool_no_null,
      hasNullList_map (fun n : Nat => J.num (n : ℚ)) (fun _ => rfl)]

theorem dumpKingfisherRule_no_null (r : KingfisherRule) :
    hasNull (dumpKingfisherRule r) = false := by
  have hreq : ∀ q : KingfisherRequest, hasNull (dumpKingfisherRequest q) = false := by
    intro q
    simp [dumpKingfisherRequest, hasNull_obj, hasNullObj_append, hasNullObj_cons,
      hasNullObj_nil, hasNull_str, optEntry_str_no_null, optEntry_bool_no_null,
      hasNullObj_optEntry _ _ (hasNull_jPairs J.str (fun _ => rfl)),
      optEntry_arrMap_no_null dumpResponseMatcher dumpResponseMatcher_no_null]
  have hval : ∀ v : KingfisherValidation,
      hasNull (dumpKingfisherValidation v) = false := by
    intro v
    simp [dumpKingfisherValidation, hasNull_obj, hasNullObj_cons, hasNullObj_nil,
      hasNull_str, hreq]
  simp [dumpKingfisherRule, hasNull_obj, hasNullObj_append, hasNullObj_cons,
    hasNullObj_nil, hasNull_str, optEntry_num_no_null, optEntry_bool_no_null,
    optEntry_strList_no_null,
    hasNullObj_optEntry _ _ (fun c => hasNull_str (confidenceStr c)),
    optEntry_arrMap_no_null dumpKingfisherRuleRef
      (fun x => by simp [dumpKingfisherRuleRef, hasNull_obj, hasNullObj_cons,
        hasNullObj_nil, hasNull_str]),
    hasNullObj_optEntry _ _ hval]

theorem dumpTrufflehogDetector_no_null (d : TrufflehogDetector) :
    hasNull (dumpTrufflehogDetector d) = false := by
  simp [dumpTrufflehogDetector, hasNull_obj, hasNullObj_append, hasNullObj_cons,
    hasNullObj_nil, hasNull_str, optEntry_num_no_null, optEntry_strList_no_null,
    hasNull_jPairs J.str (fun _ => rfl),
    optEntry_arrMap_no_null dumpTrufflehogVerify
      (fun v => by simp [dumpTrufflehogVerify, hasNull_obj, hasNullObj_append,
        hasNullObj_cons, hasNullObj_nil, hasNull_str, optEntry_bool_no_null,
        optEntry_strList_no_null])]

theorem dumpNoseyparkerRule_no_null (r : NoseyparkerRule) :
    hasNull (dumpNoseyparkerRule r) = false := by
  simp [dumpNoseyparkerRule, hasNull_obj, hasNullObj_append, hasNullObj_cons,
    hasNullObj_nil, hasNull_str, optEntry_str_no_null, optEntry_strList_no_null]

/-- C8 counterexample: the github per-rule mapping is a plain dict, whose
`None` entries survive `exclude_none`; for a target with no affixes the
serialized github document carries explicit nulls for `before_secret` and
`after_secret`. -/
theorem C8_github_null_counterexample :
    ("before_secret", J.null) ∈ (github_pattern bareRule).1 ∧
    ("after_secret", J.null) ∈ (github_pattern bareRule).1 ∧
    github_dump [bareRule] =
      J.obj [("patterns", J.arr [J.obj (github_pattern bareRule).1])] := by
  have h : (github_pattern bareRule).1 =
      [("secret_format", J.str bareRule.target.pattern),
       ("before_secret", J.null), ("after_secret", J.null)] := rfl
  refine ⟨?_, ?_, rfl⟩
  · rw [h]
    exact List.mem_cons_of_mem _ (List.mem_cons_self _ _)
  · rw [h]
    exact List.mem_cons_of_mem _ (List.mem_cons_of_mem _ (List.mem_cons_self _ _))

/-- C8 (amended): serialization omits every unset model field and emits no
explicit null for the gitleaks, kingfisher, trufflehog and noseyparker
backends; the github backend's per-rule mapping is a plain dict whose
entries are not filtered by `exclude_none`, so a rule whose Target lacks
`prefix_pattern` or `suffix_pattern` serializes with explicit nulls for
`before_secret` / `after_secret`. -/
theorem C8_serialization_nulls (rules : List Rule) :
    (hasNull (gitleaks_dump rules) = false ∧
     hasNull (kingfisher_dump rules) = false ∧
     hasNull (trufflehog_dump rules) = false ∧
     hasNull (noseyparker_dump rules) = false) ∧
    (∀ r ∈ rules, r.target.prefix_pattern = none →
      ("before_secret", J.null) ∈ (github_pattern r).1) ∧
    (∀ r ∈ rules, r.target.suffix_pattern = none →
      ("after_secret", J.null) ∈ (github_pattern r).1) ∧
    github_dump rules =
      J.obj [("patterns", J.arr (rules.map (fun r => J.obj (github_pattern r).1)))] := by
  refine ⟨⟨?_, ?_, ?_, ?_⟩, ?_, ?_, ?_⟩
  · simp [gitleaks_dump, hasNull_obj, hasNullObj_cons, hasNullObj_nil,
      hasNull_arr, hasNullList_map dumpGitleaksRule dumpGitleaksRule_no_null]
  · simp [kingfisher_dump, hasNull_obj, hasNullObj_cons, hasNullObj_nil,
      hasNull_arr, hasNullList_map dumpKingfisherRule dumpKingfisherRule_no_null]
  · simp [trufflehog_dump, hasNull_obj, hasNullObj_cons, hasNullObj_nil,
      hasNull_arr,
      hasNullList_map dumpTrufflehogDetector dumpTrufflehogDetector_no_null]
  · simp [noseyparker_dump, hasNull_obj, hasNullObj_cons, hasNullObj_nil,
      hasNull_arr,
      hasNullList_map dumpNoseyparkerRule dumpNoseyparkerRule_no_null]
  · intro r _ hpre
    unfold github_pattern
    rw [github_fold_closed]
    refine List.mem_append.2 (Or.inl ?_)
    rw [hpre]
    exact List.mem_cons_of_mem _ (List.mem_cons_self _ _)
  · intro r _ hsuf
    unfold github_pattern
    rw [github_fold_closed]
    refine List.mem_append.2 (Or.inl ?_)
    rw [hsuf]
    exact List.mem_cons_of_mem _ (List.mem_cons_of_mem _ (List.mem_cons_self _ _))
  · simp [github_dump, github_config, List.map_map]

/-- Witness for C8 (amended) at the one-rule list `[bareRule]`. -/
theorem C8_serialization_nulls_witness :
    bareRule ∈ [bareRule] ∧ bareRule.target.prefix_pattern = none ∧
    ("before_secret", J.null) ∈ (github_pattern bareRule).1 ∧
    hasNull (gitleaks_dump [bareRule]) = false :=
  ⟨List.mem_cons_self _ _, rfl,
   (C8_serialization_nulls [bareRule]).2.1 bareRule (List.mem_cons_self _ _) rfl,
   (C8_serialization_nulls [bareRule]).1.1⟩

end SSSIG
